import Mathlib

/-!
Shallow embedding of the turo_crawler repository: the round-trip navigator
(crawler.py), the rental date extractor and month filter (rental_extractor.py),
the receipt cost parser and income calculator (receipt_processor.py), the
vehicle listing extractor (extract_vehicle_from_listing.py), and theorems
settling the specification claims.

Modelling conventions: Python floats are modelled as exact rationals; Python
strings as Lean strings and their character lists (ASCII view of the regex
classes); browser I/O (page contents, navigation outcomes) as explicit
environment parameters; Python dicts as association lists with
insert-overwrite semantics.
-/

/-- Substring containment on character lists: models the Python operator
testing whether one string occurs inside another. -/
def hasSub : List Char → List Char → Bool
  | [], needle => needle.isEmpty
  | c :: rest, needle => needle.isPrefixOf (c :: rest) || hasSub rest needle

/-- Model of Python str.strip: drop whitespace from both ends. -/
def pyStrip (s : String) : List Char :=
  ((s.data.dropWhile Char.isWhitespace).reverse.dropWhile Char.isWhitespace).reverse

/-- Model of Python str.lower, as a character list. -/
def pyLower (s : String) : List Char :=
  s.data.map Char.toLower

/-- The test used twice in receipt_processor.py: whether the lower-cased label
contains the literal substring "discount". -/
def labelHasDiscount (label : String) : Bool :=
  hasSub (pyLower label) "discount".data

/-- Python regex class for a word character, ASCII view: letter, digit or
underscore. -/
def wordChar (c : Char) : Bool := c.isAlphanum || c == '_'

/-- Match exactly three word characters (a month token of the date pattern). -/
def takeMonthToken : List Char → Option (List Char × List Char)
  | a :: b :: c :: rest =>
    if wordChar a && wordChar b && wordChar c then some ([a, b, c], rest) else none
  | _ => none

/-- Match one or more whitespace characters and drop them. -/
def skipSpaces1 (cs : List Char) : Option (List Char) :=
  if (cs.takeWhile Char.isWhitespace).isEmpty then none
  else some (cs.dropWhile Char.isWhitespace)

/-- Match the first day field, which the pattern follows with the dash
separator: a maximal digit run of length one or two (a longer run cannot be
completed, which the regex engine discovers by backtracking, because the
character after the chosen digits is another digit and matches neither
whitespace nor the dash). -/
def takeDay12 (cs : List Char) : Option (List Char × List Char) :=
  let run := cs.takeWhile Char.isDigit
  if run.length == 1 || run.length == 2 then some (run, cs.dropWhile Char.isDigit)
  else none

/-- Match the trailing day field: the first one or two digits of a nonempty
digit run; the pattern ends here, so all further characters are ignored. -/
def takeDayFinal (cs : List Char) : Option (List Char) :=
  let run := cs.takeWhile Char.isDigit
  if run.isEmpty then none else some (run.take 2)

/-- Match the separator: optional whitespace, a dash, optional whitespace. -/
def takeDash (cs : List Char) : Option (List Char) :=
  match cs.dropWhile Char.isWhitespace with
  | '-' :: rest => some (rest.dropWhile Char.isWhitespace)
  | _ => none

/-- Parsed date fields produced by parse_date_range. -/
structure DateInfo where
  start_date : String
  end_date : String
  end_month : String
deriving DecidableEq, Repr

/-- Deterministic model of re.match with the date-range pattern of
rental_extractor.py (three word characters, one or more spaces, one or two
digits, a dash with optional surrounding spaces, three word characters, one or
more spaces, one or two digits) against a character list: anchored at the
start, trailing characters ignored. -/
def matchDateRange (cs : List Char) :
    Option (List Char × List Char × List Char × List Char) := do
  let (m1, cs) ← takeMonthToken cs
  let cs ← skipSpaces1 cs
  let (d1, cs) ← takeDay12 cs
  let cs ← takeDash cs
  let (m2, cs) ← takeMonthToken cs
  let cs ← skipSpaces1 cs
  let d2 ← takeDayFinal cs
  pure (m1, d1, m2, d2)

/-- Model of RentalExtractor.parse_date_range: strip the input, match the
anchored pattern, and on success build the record from the matched groups. -/
def parse_date_range (dateText : String) : Option DateInfo :=
  match matchDateRange (pyStrip dateText) with
  | some (m1, d1, m2, d2) =>
    some { start_date := m1.asString ++ " " ++ d1.asString,
           end_date := m2.asString ++ " " ++ d2.asString,
           end_month := m2.asString }
  | none => none

/-- Model of RentalExtractor.is_rental_in_target_month: false when no target
month is configured (None or the empty string, both falsy in Python),
otherwise an equality test on the parsed end month. -/
def is_rental_in_target_month (targetMonth : Option String) (dateInfo : DateInfo) : Bool :=
  match targetMonth with
  | none => false
  | some tm => if tm = "" then false else dateInfo.end_month == tm

/-- One rental entry as scraped from a vehicle's rentals page. -/
structure Rental where
  href : String
  date_text : String
  trip_name : String
  vehicle_name : String
deriving DecidableEq, Repr

/-- One retained rental record, as built by process_vehicle_rentals. -/
structure MatchingRental where
  vehicle_info : List String
  rental_href : String
  parsed_dates : DateInfo
deriving DecidableEq, Repr

/-- The per-rental body of the loop in process_vehicle_rentals: a record is
produced exactly when the date text parses and the parsed end month passes the
target-month filter. -/
def producedRecord (targetMonth : Option String) (vehicleInfo : List String) (r : Rental) :
    Option MatchingRental :=
  match parse_date_range r.date_text with
  | some di =>
    if is_rental_in_target_month targetMonth di then
      some { vehicle_info := vehicleInfo, rental_href := r.href, parsed_dates := di }
    else none
  | none => none

/-- Model of RentalExtractor.process_vehicle_rentals on the rentals list
obtained from the page (page I/O abstracted to the given list). -/
def process_vehicle_rentals (targetMonth : Option String) (vehicleInfo : List String)
    (pageRentals : List Rental) : List MatchingRental :=
  pageRentals.filterMap (producedRecord targetMonth vehicleInfo)

/-- Python dict assignment on an association list: overwrite in place when the
key already exists (dicts keep the original insertion position), append
otherwise. -/
def dictInsert {α : Type} (m : List (String × α)) (k : String) (v : α) : List (String × α) :=
  if m.any (fun p => p.1 == k) then m.map (fun p => if p.1 == k then (k, v) else p)
  else m ++ [(k, v)]

/-- Characters matched by the bracket class of the amount pattern: a digit or
a comma. -/
def numChar (c : Char) : Bool := c.isDigit || c == ','

/-- Model of re.search with the amount pattern of extract_cost_details (an
optional dollar sign, then one or more digits or commas, then an optional
point with trailing digits): the leftmost match wins and the captured group
never includes the dollar sign, so the group is the first maximal digit-or-
comma run together with a directly following point and digit run. -/
def scanAmountGroup : List Char → Option (List Char)
  | [] => none
  | c :: rest =>
    if numChar c then
      let body := (c :: rest).takeWhile numChar
      let after := (c :: rest).dropWhile numChar
      match after with
      | '.' :: tail => some (body ++ '.' :: tail.takeWhile Char.isDigit)
      | _ => some body
    else scanAmountGroup rest

/-- Numeric value of a digit list, most significant digit first. -/
def digitsVal (cs : List Char) : Nat :=
  cs.foldl (fun acc c => 10 * acc + (c.toNat - 48)) 0

/-- Model of Python float() applied to the captured group with commas removed:
digits, an optional point, digits. A group holding no digit at all would make
float() raise ValueError, modelled as none. -/
def parseAmountChars (cs : List Char) : Option ℚ :=
  let ds := cs.filter (fun c => c != ',')
  let intPart := ds.takeWhile Char.isDigit
  let rest := ds.dropWhile Char.isDigit
  let fracPart := match rest with
    | '.' :: fs => fs
    | _ => []
  if intPart.isEmpty && fracPart.isEmpty then none
  else some ((digitsVal intPart : ℚ) + (digitsVal fracPart : ℚ) / 10 ^ fracPart.length)

/-- The nonnegative magnitude extracted from a rendered value text by
extract_cost_details, before the sign rule is applied. -/
def rowMagnitude (valueText : String) : Option ℚ :=
  (scanAmountGroup valueText.data).bind parseAmountChars

/-- The signed amount stored for one cost row: the extracted magnitude, forced
to minus its absolute value when the value text contains a dash or the label
contains "discount" case-insensitively, taken as extracted otherwise. -/
def rowAmount (label valueText : String) : Option ℚ :=
  match rowMagnitude valueText with
  | none => none
  | some v =>
    some (if valueText.data.contains '-' || labelHasDiscount label then -|v| else v)

/-- The per-row step of ReceiptProcessor.extract_cost_details on the
label/value text pair yielded by the row traversal (the BeautifulSoup walk
over the cost-details section is abstracted to those pairs): a row with an
empty label or value text is skipped, a row whose value text yields no number
is skipped, and a surviving row is stored with dict overwrite semantics. -/
def costStep (acc : List (String × ℚ)) (row : String × String) : List (String × ℚ) :=
  if row.1 != "" && row.2 != "" then
    match rowAmount row.1 row.2 with
    | some v => dictInsert acc row.1 v
    | none => acc
  else acc

/-- Model of ReceiptProcessor.extract_cost_details: the fold of costStep over
the rows, starting from the empty breakdown. -/
def extract_cost_details (rows : List (String × String)) : List (String × ℚ) :=
  rows.foldl costStep []

/-- The income figures derived from one cost breakdown. -/
structure IncomeCalculation where
  trip_price : ℚ
  discounts : ℚ
  net_amount : ℚ
  turo_fee : ℚ
  final_income : ℚ
deriving DecidableEq, Repr

/-- Python dict get with a default, on an association list. -/
def dictGetD (m : List (String × ℚ)) (k : String) (d : ℚ) : ℚ :=
  match m.find? (fun p => p.1 == k) with
  | some p => p.2
  | none => d

/-- Model of ReceiptProcessor.calculate_income: the trip price is looked up
under the literal label "Trip price" with default 0, the discounts sum ranges
over the entries whose label contains "discount" case-insensitively and whose
value is negative, and the fee rate literal 0.10 is the exact rational
1 / 10. -/
def calculate_income (cb : List (String × ℚ)) : IncomeCalculation :=
  let trip_price := dictGetD cb "Trip price" 0
  let discounts :=
    ((cb.filter (fun p => labelHasDiscount p.1 && decide (p.2 < 0))).map Prod.snd).sum
  let net_amount := trip_price + discounts
  let turo_fee := net_amount * (1 / 10)
  let final_income := net_amount - turo_fee
  { trip_price := trip_price, discounts := discounts, net_amount := net_amount,
    turo_fee := turo_fee, final_income := final_income }

/-- One link record as produced by get_all_hrefs (only the fields the
navigator reads are modelled). -/
structure Link where
  text : String
  href : String
deriving DecidableEq, Repr

/-- The environment's outcome for the navigate-and-capture phase of one
target: either every statement of the try block succeeds (with the url and
title then observed and a capture timestamp) or some statement raises. -/
inductive NavOutcome where
  | ok (url title : String) (time : Nat)
  | err (msg : String) (time : Nat)
deriving DecidableEq, Repr

/-- The environment's behaviour for one loop iteration: the outcome of the
navigation phase, whether the goto back to the origin succeeds, and, consulted
only when it fails, whether connect_to_browser succeeds (carrying the url of
the page it then attaches to). -/
structure StepBehavior where
  nav : NavOutcome
  returnOk : Bool
  reconnect : Option String
deriving DecidableEq, Repr

/-- One navigation result dict: index and original link always present, the
success fields and the error field mutually exclusive, a timestamp in both
shapes. -/
structure NavResult where
  index : Nat
  original_link : Link
  current_url : Option String
  page_title : Option String
  timestamp : Nat
  error : Option String
deriving DecidableEq, Repr

/-- Output of a navigator run: the results list, the url of the session's page
when the loop ends, and the number of reconnect attempts made. -/
structure RunOutput where
  results : List NavResult
  finalUrl : String
  reconnects : Nat
deriving DecidableEq, Repr

/-- The result dict built for one iteration of navigate_and_return. -/
def navStepResult (i : Nat) (l : Link) : NavOutcome → NavResult
  | .ok url title t =>
    { index := i, original_link := l, current_url := some url,
      page_title := some title, timestamp := t, error := none }
  | .err msg t =>
    { index := i, original_link := l, current_url := none,
      page_title := none, timestamp := t, error := some msg }

/-- The session page's url after the navigation phase of one iteration. -/
def navStepUrl (cur : String) : NavOutcome → String
  | .ok url _ _ => url
  | .err _ _ => cur

/-- The for-loop of navigate_and_return: one result appended per iteration
(the success dict or the error dict), then a goto back to the captured origin
url; when that goto raises there is exactly one reconnect attempt, and a break
abandons the remaining targets when the reconnect fails too. -/
def navLoop (orig : String) : Nat → String → List (Link × StepBehavior) → RunOutput
  | _, cur, [] => { results := [], finalUrl := cur, reconnects := 0 }
  | i, cur, (l, b) :: rest =>
    let res := navStepResult i l b.nav
    let cur1 := navStepUrl cur b.nav
    if b.returnOk then
      let out := navLoop orig (i + 1) orig rest
      { results := res :: out.results, finalUrl := out.finalUrl,
        reconnects := out.reconnects }
    else
      match b.reconnect with
      | some reUrl =>
        let out := navLoop orig (i + 1) reUrl rest
        { results := res :: out.results, finalUrl := out.finalUrl,
          reconnects := out.reconnects + 1 }
      | none => { results := [res], finalUrl := cur1, reconnects := 1 }

/-- Model of TuroCrawler.navigate_and_return: the origin url is captured once
from the connected page before the loop starts. -/
def navigate_and_return (pageUrl : String) (steps : List (Link × StepBehavior)) : RunOutput :=
  navLoop pageUrl 0 pageUrl steps

/-- Whether the navigation phase of a step succeeds. -/
def navOk : NavOutcome → Bool
  | .ok _ _ _ => true
  | .err _ _ => false

/-- Whether a step makes the loop break: the return to origin fails and the
reconnect attempt fails too. -/
def stepStops (b : StepBehavior) : Bool := !b.returnOk && b.reconnect.isNone

/-- Method resolution for the call self.open_new_tab() made by
ReceiptProcessor.process_receipt and RentalExtractor.extract_rentals_from_page:
no class in the codebase (TuroCrawler, ReceiptProcessor, RentalExtractor,
TuroVehicleExtractor) defines a method of this name, so in Python the lookup
itself raises AttributeError before any browser work happens. -/
def open_new_tab : Except String Unit :=
  .error "AttributeError: object has no attribute open_new_tab"

/-- Model of RentalExtractor.extract_rentals_from_page: open a secondary page,
navigate to the rentals url and evaluate the scraping script (the page
contents abstracted to the environment pageEnv); any exception in the try
block, including the AttributeError from the missing open_new_tab, is caught
and the empty list returned. -/
def extract_rentals_from_page (pageEnv : String → List Rental) (vehicleUrl : String) :
    List Rental :=
  match open_new_tab with
  | .ok _ => pageEnv (vehicleUrl ++ "/rentals")
  | .error _ => []

/-- One receipt-processing result dict: link, vehicle and owner identification
always present, the parsed breakdown and income only along the success path,
an error description otherwise. -/
structure ReceiptResult where
  rental_href : String
  vehicle_info : List String
  owner : String
  license_plate : String
  cost_breakdown : Option (List (String × ℚ))
  income_calculation : Option IncomeCalculation
  error : Option String
deriving DecidableEq, Repr

/-- Model of ReceiptProcessor.process_receipt: open a secondary page, navigate
to the receipt url and read the cost-details section (its rows abstracted to
the environment costEnv, none meaning the section is absent); the
AttributeError from the missing open_new_tab is raised first and caught by the
surrounding except clause, which returns the error dict. -/
def process_receipt (costEnv : String → Option (List (String × String)))
    (rentalHref : String) (vehicleInfo : List String) (ownerName licensePlate : String) :
    ReceiptResult :=
  match open_new_tab with
  | .error e =>
    { rental_href := rentalHref, vehicle_info := vehicleInfo, owner := ownerName,
      license_plate := licensePlate, cost_breakdown := none,
      income_calculation := none, error := some e }
  | .ok _ =>
    match costEnv (rentalHref ++ "/receipt") with
    | none =>
      { rental_href := rentalHref, vehicle_info := vehicleInfo, owner := ownerName,
        license_plate := licensePlate, cost_breakdown := none,
        income_calculation := none, error := some "No cost details found" }
    | some rows =>
      let cb := extract_cost_details rows
      { rental_href := rentalHref, vehicle_info := vehicleInfo, owner := ownerName,
        license_plate := licensePlate, cost_breakdown := some cb,
        income_calculation := some (calculate_income cb), error := none }

/-- Model of ReceiptProcessor.get_owner_for_license_plate: the first owner in
insertion order whose plate list contains the plate, none otherwise. -/
def get_owner_for_license_plate (owners : List (String × List String))
    (licensePlate : String) : Option String :=
  match owners.find? (fun p => p.2.contains licensePlate) with
  | some p => some p.1
  | none => none

/-- The pool of all license plates of the owner index, as built by
process_all_vehicles from vehicle_owners.json. -/
def allowedPlates (owners : List (String × List String)) : List String :=
  owners.foldl (fun acc p => acc ++ p.2) []

/-- The vehicle filter of RentalExtractor.process_all_vehicles: keep a vehicle
only when its info tuple has at least three entries and the third entry, the
license plate, occurs in the owner index. -/
def keepVehicle (owners : List (String × List String)) (info : List String) : Bool :=
  decide (3 ≤ info.length) && (allowedPlates owners).contains (info.getD 2 "")

/-- Model of RentalExtractor.process_all_vehicles on loaded vehicle and owner
tables: vehicles failing the owner filter are dropped before any page work,
and each surviving vehicle contributes its month-filtered rentals (page I/O
abstracted to pageRentals). -/
def process_all_vehicles (targetMonth : Option String) (pageRentals : String → List Rental)
    (vehicles owners : List (String × List String)) :
    List (String × List MatchingRental) :=
  (vehicles.filter (fun p => keepVehicle owners p.2)).map
    (fun p => (p.1, process_vehicle_rentals targetMonth p.2 (pageRentals p.1)))

/-- The per-vehicle step of ReceiptProcessor.process_all_receipts, parametric
in the per-receipt processor pr (instantiated by process_receipt): a vehicle
with an empty rental list, an info tuple shorter than three entries, or a
license plate with no owner in the index is skipped; each remaining rental is
processed and its result appended. -/
def receiptsStep (pr : String → List String → String → String → ReceiptResult)
    (owners : List (String × List String)) (acc : List ReceiptResult)
    (p : String × List MatchingRental) : List ReceiptResult :=
  match p.2 with
  | [] => acc
  | first :: _ =>
    let info := first.vehicle_info
    if 3 ≤ info.length then
      match get_owner_for_license_plate owners (info.getD 2 "") with
      | some ownerName =>
        acc ++ p.2.map (fun r => pr r.rental_href info ownerName (info.getD 2 ""))
      | none => acc
    else acc

/-- Model of ReceiptProcessor.process_all_receipts: the guarded fold of
receiptsStep over the loaded rental table (guard: both tables loaded and
nonempty, empty dicts being falsy in Python). -/
def process_all_receipts (pr : String → List String → String → String → ReceiptResult)
    (owners : List (String × List String))
    (rentalData : List (String × List MatchingRental)) : List ReceiptResult :=
  if owners.isEmpty || rentalData.isEmpty then []
  else rentalData.foldl (receiptsStep pr owners) []

/-- One vehicle listing card as seen by the eval script of
extract_vehicle_listings: the link target, the resolved main title (title
attribute, else trimmed text) when the title element exists, and the title
attribute of each subtitle element in document order (none when the attribute
is absent, which the script renders as the string "null"). -/
structure Card where
  href : String
  mainTitle : Option String
  subtitles : List (Option String)
deriving DecidableEq, Repr

/-- JavaScript template-literal rendering of a getAttribute result. -/
def jsRender : Option String → String
  | some s => s
  | none => "null"

/-- The per-card body of the eval script: the main title is pushed only when
its element exists and its resolved text is truthy, then the first two
subtitle elements are read unconditionally; a card with fewer than two
subtitle elements makes the script dereference undefined, raising a TypeError
that escapes the forEach callback. -/
def extractCard (c : Card) : Except String (String × List String) :=
  let titleDetails : List String :=
    match c.mainTitle with
    | some t => if t != "" then [t] else []
    | none => []
  match c.subtitles with
  | s1 :: s2 :: _ => .ok (c.href, titleDetails ++ [jsRender s1, jsRender s2])
  | _ => .error "TypeError: cannot read properties of undefined"

/-- The forEach of the eval script, threading the vehicles object: an entry is
added only when the details list is nonempty, and a TypeError thrown by any
card aborts the whole script, discarding every entry built so far. -/
def extractAllCards : List Card → List (String × List String) →
    Except String (List (String × List String))
  | [], acc => .ok acc
  | c :: rest, acc =>
    match extractCard c with
    | .error e => .error e
    | .ok entry =>
      extractAllCards rest
        (if entry.2.length > 0 then dictInsert acc entry.1 entry.2 else acc)

/-- Model of TuroVehicleExtractor.extract_vehicle_listings on the card list of
the current page: a rejected eval (any exception) is caught by the except
clause, which returns the empty mapping. -/
def extract_vehicle_listings (cards : List Card) : List (String × List String) :=
  match extractAllCards cards [] with
  | .ok m => m
  | .error _ => []


/-- A produced rental record carries the vehicle info tuple it was built
from. -/
theorem producedRecord_vehicle_info (targetMonth : Option String) (info : List String)
    (r : Rental) (m : MatchingRental) (h : producedRecord targetMonth info r = some m) :
    m.vehicle_info = info := by
  cases hp : parse_date_range r.date_text with
  | none => simp [producedRecord, hp] at h
  | some di =>
    simp only [producedRecord, hp] at h
    split at h
    · cases h
      rfl
    · cases h

/-- With a nonempty target month configured, a rental record is produced
exactly when the date text parses and the parsed end month equals the
target. -/
theorem producedRecord_isSome_iff (tm : String) (htm : tm ≠ "") (info : List String)
    (r : Rental) :
    (producedRecord (some tm) info r).isSome = true ↔
      ∃ di, parse_date_range r.date_text = some di ∧ di.end_month = tm := by
  unfold producedRecord
  cases hp : parse_date_range r.date_text with
  | none => simp
  | some di =>
    simp only [is_rental_in_target_month, if_neg htm]
    by_cases hm : di.end_month = tm
    · simp [hm]
    · have : (di.end_month == tm) = false := by
        simpa using hm
      simp [this, hm]

/-- Every retained rental of process_vehicle_rentals comes from some rental of
the page through producedRecord. -/
theorem process_vehicle_rentals_mem (targetMonth : Option String) (info : List String)
    (pageRentals : List Rental) (m : MatchingRental)
    (h : m ∈ process_vehicle_rentals targetMonth info pageRentals) :
    ∃ r ∈ pageRentals, producedRecord targetMonth info r = some m := by
  unfold process_vehicle_rentals at h
  exact List.mem_filterMap.1 h

/-- C5: with a configured target month, a rental record is produced if and
only if the date text parses under the date-range shape and the parsed end
month equals the target month; "Jul 3 - Jul 13" parses to the stated record
and is filtered out under target month "Aug", "Jul 28 - Aug 2" is retained
under target month "Aug", and unparseable text yields no record rather than
an error. -/
theorem C5_rental_month_filter (tm : String) (htm : tm ≠ "") :
    (∀ info r, (producedRecord (some tm) info r).isSome = true ↔
        ∃ di, parse_date_range r.date_text = some di ∧ di.end_month = tm) ∧
    (∀ info pageRentals m, m ∈ process_vehicle_rentals (some tm) info pageRentals →
        ∃ r ∈ pageRentals, producedRecord (some tm) info r = some m) ∧
    parse_date_range "Jul 3 - Jul 13" =
      some { start_date := "Jul 3", end_date := "Jul 13", end_month := "Jul" } ∧
    producedRecord (some "Aug") ["Car", "Trim", "PLATE"]
      { href := "h1", date_text := "Jul 3 - Jul 13", trip_name := "", vehicle_name := "" } =
      none ∧
    (producedRecord (some "Aug") ["Car", "Trim", "PLATE"]
      { href := "h2", date_text := "Jul 28 - Aug 2", trip_name := "",
        vehicle_name := "" }).isSome = true ∧
    parse_date_range "the booking was cancelled" = none := by
  refine ⟨fun info r => producedRecord_isSome_iff tm htm info r,
    fun info pageRentals m h => process_vehicle_rentals_mem (some tm) info pageRentals m h,
    by decide, by decide, by decide, by decide⟩

/-- Witness for C5 at target month "Aug" and the retained spec example. -/
theorem C5_rental_month_filter_witness :
    ((producedRecord (some "Aug") ["Car", "Trim", "PLATE"]
        { href := "h2", date_text := "Jul 28 - Aug 2", trip_name := "",
          vehicle_name := "" }).isSome = true ↔
      ∃ di, parse_date_range "Jul 28 - Aug 2" = some di ∧ di.end_month = "Aug") ∧
    parse_date_range "the booking was cancelled" = none :=
  ⟨(C5_rental_month_filter "Aug" (by decide)).1 ["Car", "Trim", "PLATE"]
      { href := "h2", date_text := "Jul 28 - Aug 2", trip_name := "", vehicle_name := "" },
    (C5_rental_month_filter "Aug" (by decide)).2.2.2.2.2⟩

/-- C10: parse_date_range is anchored only at the start of the stripped input
(a match later in the text is not found), ignores trailing characters after
the match, and accepts any three word characters as month tokens, not only
the twelve month abbreviations. -/
theorem C10_parse_anchoring_and_loose_months :
    parse_date_range "Jul 3 - Jul 13 plus trailing text" = parse_date_range "Jul 3 - Jul 13" ∧
    parse_date_range "Jul 3 - Jul 13 plus trailing text" =
      some { start_date := "Jul 3", end_date := "Jul 13", end_month := "Jul" } ∧
    parse_date_range "abc 1 - xyz 2" =
      some { start_date := "abc 1", end_date := "xyz 2", end_month := "xyz" } ∧
    parse_date_range "x Jul 3 - Jul 13" = none := by
  refine ⟨by decide, by decide, by decide, by decide⟩

/-- A list of nonpositive rationals sums to a nonpositive value. -/
theorem list_sum_nonpos {l : List ℚ} (h : ∀ x ∈ l, x ≤ 0) : l.sum ≤ 0 := by
  induction l with
  | nil => simp
  | cons a t ih =>
    simp only [List.sum_cons]
    have ha := h a (by simp)
    have ht := ih (fun x hx => h x (List.mem_cons_of_mem a hx))
    linarith

/-- The discounts field of calculate_income is nonpositive: it sums only
entries filtered to be negative. -/
theorem calculate_income_discounts_nonpos (cb : List (String × ℚ)) :
    (calculate_income cb).discounts ≤ 0 := by
  apply list_sum_nonpos
  intro x hx
  simp only [List.mem_map] at hx
  obtain ⟨p, hp, hpe⟩ := hx
  have hcond := List.of_mem_filter hp
  simp only [Bool.and_eq_true, decide_eq_true_eq] at hcond
  rw [← hpe]
  exact le_of_lt hcond.2

/-- C3: calculate_income is a pure function of the breakdown satisfying the
stated equations; the trip price is the value stored under the literal label
"Trip price" (0 when absent, not an error), the discounts field sums exactly
the negative discount-labelled entries and is nonpositive, the spec's round
trip example evaluates as stated, and a breakdown with no "Trip price" key and
no negative discount-labelled entry yields the all-zero IncomeCalculation. -/
theorem C3_calculate_income_spec :
    (∀ cb, (calculate_income cb).net_amount =
        (calculate_income cb).trip_price + (calculate_income cb).discounts) ∧
    (∀ cb, (calculate_income cb).turo_fee = (calculate_income cb).net_amount * (1 / 10)) ∧
    (∀ cb, (calculate_income cb).final_income =
        (calculate_income cb).net_amount - (calculate_income cb).turo_fee) ∧
    (∀ cb, (calculate_income cb).discounts =
        ((cb.filter (fun p => labelHasDiscount p.1 && decide (p.2 < 0))).map Prod.snd).sum) ∧
    (∀ cb, (calculate_income cb).discounts ≤ 0) ∧
    (∀ cb, cb.find? (fun p => p.1 == "Trip price") = none →
        (calculate_income cb).trip_price = 0) ∧
    (∀ cb q, cb.find? (fun p => p.1 == "Trip price") = some q →
        (calculate_income cb).trip_price = q.2) ∧
    calculate_income [("Trip price", 490.00), ("Weekly discount", -21.56)] =
      { trip_price := 490.00, discounts := -21.56, net_amount := 468.44,
        turo_fee := 46.844, final_income := 421.596 } ∧
    (∀ cb, cb.find? (fun p => p.1 == "Trip price") = none →
        (∀ p ∈ cb, labelHasDiscount p.1 = true → ¬p.2 < 0) →
        calculate_income cb =
          { trip_price := 0, discounts := 0, net_amount := 0, turo_fee := 0,
            final_income := 0 }) := by
  refine ⟨fun cb => rfl, fun cb => rfl, fun cb => rfl, fun cb => rfl,
    calculate_income_discounts_nonpos, ?_, ?_, ?_, ?_⟩
  · intro cb h
    simp [calculate_income, dictGetD, h]
  · intro cb q h
    simp [calculate_income, dictGetD, h]
  · have h1 : labelHasDiscount "Trip price" = false := by decide
    have h2 : labelHasDiscount "Weekly discount" = true := by decide
    norm_num [calculate_income, dictGetD, h1, h2, List.filter]
  · intro cb h1 h2
    have hfil : cb.filter (fun p => labelHasDiscount p.1 && decide (p.2 < 0)) = [] := by
      rw [List.filter_eq_nil_iff]
      intro p hp
      simp only [Bool.and_eq_true, decide_eq_true_eq, not_and]
      exact h2 p hp
    simp only [calculate_income, dictGetD, h1, hfil, List.map_nil, List.sum_nil]
    norm_num

/-- Witness for C3: the breakdown with neither a "Trip price" key nor a
negative discount-labelled entry evaluates to the all-zero record. -/
theorem C3_calculate_income_spec_witness :
    calculate_income [("Concierge fee", 30)] =
      { trip_price := 0, discounts := 0, net_amount := 0, turo_fee := 0,
        final_income := 0 } :=
  C3_calculate_income_spec.2.2.2.2.2.2.2.2 [("Concierge fee", 30)] (by decide)
    (by
      intro p hp hd
      simp only [List.mem_singleton] at hp
      subst hp
      exact absurd hd (by decide))

/-- The amount grammar only produces nonnegative values: the captured group
holds digits, commas and at most one point, no sign. -/
theorem parseAmountChars_nonneg (cs : List Char) (v : ℚ) (h : parseAmountChars cs = some v) :
    0 ≤ v := by
  unfold parseAmountChars at h
  dsimp only at h
  split at h
  · cases h
  · cases h
    positivity

/-- The magnitude extracted from a value text is nonnegative. -/
theorem rowMagnitude_nonneg (valueText : String) (v : ℚ) (h : rowMagnitude valueText = some v) :
    0 ≤ v := by
  unfold rowMagnitude at h
  cases hg : scanAmountGroup valueText.data with
  | none => rw [hg] at h; cases h
  | some g =>
    rw [hg] at h
    exact parseAmountChars_nonneg g v h

/-- An entry of a dict after an insert is either an old entry or the inserted
pair. -/
theorem dictInsert_mem {α : Type} (m : List (String × α)) (k : String) (v : α)
    (e : String × α) (he : e ∈ dictInsert m k v) : e ∈ m ∨ e = (k, v) := by
  unfold dictInsert at he
  split at he
  · obtain ⟨p, hp, hpe⟩ := List.mem_map.1 he
    by_cases hk : (p.1 == k) = true
    · rw [if_pos hk] at hpe
      exact Or.inr hpe.symm
    · rw [if_neg hk] at hpe
      exact Or.inl (hpe ▸ hp)
  · rcases List.mem_append.1 he with h | h
    · exact Or.inl h
    · simp only [List.mem_singleton] at h
      exact Or.inr h

/-- An entry surviving one cost row step is an old entry or carries the signed
amount computed for that row under that row's label. -/
theorem costStep_mem (acc : List (String × ℚ)) (row : String × String) (e : String × ℚ)
    (he : e ∈ costStep acc row) :
    e ∈ acc ∨ (e.1 = row.1 ∧ rowAmount row.1 row.2 = some e.2) := by
  unfold costStep at he
  split at he
  · split at he
    · rename_i v hv
      rcases dictInsert_mem acc row.1 v e he with h | h
      · exact Or.inl h
      · right
        rw [h]
        exact ⟨rfl, hv⟩
    · exact Or.inl he
  · exact Or.inl he

/-- Every entry of the folded breakdown is an initial entry or comes from some
row through rowAmount. -/
theorem foldl_costStep_mem (rows : List (String × String)) :
    ∀ (acc : List (String × ℚ)) (e : String × ℚ), e ∈ rows.foldl costStep acc →
      e ∈ acc ∨ ∃ t, (e.1, t) ∈ rows ∧ rowAmount e.1 t = some e.2 := by
  induction rows with
  | nil => intro acc e he; exact Or.inl he
  | cons r rest ih =>
    intro acc e he
    rcases ih (costStep acc r) e he with h | ⟨t, ht, hr⟩
    · rcases costStep_mem acc r e h with h' | ⟨h1, h2⟩
      · exact Or.inl h'
      · right
        refine ⟨r.2, ?_, h1 ▸ h2⟩
        rw [h1]
        exact List.mem_cons_self r rest
    · exact Or.inr ⟨t, List.mem_cons_of_mem r ht, hr⟩

/-- The sign rule for one cost row: with an extracted magnitude, the stored
amount is the negated absolute value exactly when the value text contains a
dash or the label contains "discount" case-insensitively, and the magnitude
itself otherwise. -/
theorem rowAmount_sign (label valueText : String) (v w : ℚ)
    (hw : rowMagnitude valueText = some w) (hv : rowAmount label valueText = some v) :
    ((valueText.data.contains '-' || labelHasDiscount label) = true → v = -|w| ∧ v ≤ 0) ∧
    ((valueText.data.contains '-' || labelHasDiscount label) = false → v = w ∧ 0 ≤ v) := by
  unfold rowAmount at hv
  rw [hw] at hv
  simp only [Option.some.injEq] at hv
  have hnn : 0 ≤ w := rowMagnitude_nonneg valueText w hw
  constructor
  · intro hc
    rw [hc] at hv
    simp only [if_true] at hv
    refine ⟨hv.symm, ?_⟩
    rw [← hv]
    simp [abs_of_nonneg hnn]
    exact hnn
  · intro hc
    rw [hc] at hv
    simp only [Bool.false_eq_true, if_false] at hv
    exact ⟨hv.symm, hv ▸ hnn⟩

/-- C4: every entry stored by extract_cost_details carries the signed amount
computed for one of its rows, and that amount is forced to minus the extracted
absolute value exactly when the rendered value text contains a minus indicator
or the label contains the case-insensitive substring "discount", all other
amounts being the nonnegative magnitude as written. -/
theorem C4_cost_row_sign_rule :
    (∀ rows e, e ∈ extract_cost_details rows →
        ∃ t, (e.1, t) ∈ rows ∧ rowAmount e.1 t = some e.2) ∧
    (∀ label valueText v w, rowMagnitude valueText = some w →
        rowAmount label valueText = some v →
        ((valueText.data.contains '-' || labelHasDiscount label) = true →
            v = -|w| ∧ v ≤ 0) ∧
        ((valueText.data.contains '-' || labelHasDiscount label) = false →
            v = w ∧ 0 ≤ v)) := by
  constructor
  · intro rows e he
    rcases foldl_costStep_mem rows [] e he with h | h
    · cases h
    · exact h
  · exact fun label valueText v w hw hv => rowAmount_sign label valueText v w hw hv

/-- Witness for C4 on the spec's weekly-discount row: both the minus indicator
and the discount label force the stored amount to the negated magnitude. -/
theorem C4_cost_row_sign_rule_witness :
    (-(2156 / 100) : ℚ) = -|(2156 / 100 : ℚ)| ∧ (-(2156 / 100) : ℚ) ≤ 0 :=
  (C4_cost_row_sign_rule.2 "Weekly discount" "- $21.56" (-(2156 / 100)) (2156 / 100)
      (by
        have h : rowMagnitude "- $21.56" =
            some (((21 : ℕ) : ℚ) + ((56 : ℕ) : ℚ) / 10 ^ 2) := rfl
        rw [h]
        simp only [Option.some.injEq]
        push_cast
        norm_num)
      (by
        have h : rowMagnitude "- $21.56" =
            some (((21 : ℕ) : ℚ) + ((56 : ℕ) : ℚ) / 10 ^ 2) := rfl
        have hc : ("- $21.56".data.contains '-' || labelHasDiscount "Weekly discount") =
            true := by decide
        unfold rowAmount
        rw [h]
        simp only [hc, if_true, Option.some.injEq]
        rw [abs_of_nonneg (by positivity)]
        push_cast
        norm_num)).1
    (by decide)

/-- The result built for an iteration always records that iteration's index. -/
theorem navStepResult_index (i : Nat) (l : Link) (o : NavOutcome) :
    (navStepResult i l o).index = i := by
  cases o <;> rfl

/-- The result built for an iteration always records that iteration's link. -/
theorem navStepResult_original_link (i : Nat) (l : Link) (o : NavOutcome) :
    (navStepResult i l o).original_link = l := by
  cases o <;> rfl

/-- The navigator loop stops exactly at the first step whose return fails with
a failed reconnect, and otherwise runs the whole list. -/
theorem navLoop_length (orig : String) (steps : List (Link × StepBehavior)) :
    ∀ (i : Nat) (cur : String),
      (navLoop orig i cur steps).results.length =
        min steps.length (steps.findIdx (fun p => stepStops p.2) + 1) := by
  induction steps with
  | nil => intro i cur; simp [navLoop]
  | cons s rest ih =>
    intro i cur
    obtain ⟨l, b⟩ := s
    cases hr : b.returnOk with
    | true =>
      have hs : stepStops b = false := by simp [stepStops, hr]
      have H := ih (i + 1) orig
      simp [navLoop, hr, hs, List.findIdx_cons]
      omega
    | false =>
      cases hrc : b.reconnect with
      | some reUrl =>
        have hs : stepStops b = false := by simp [stepStops, hr, hrc]
        have H := ih (i + 1) reUrl
        simp [navLoop, hr, hrc, hs, List.findIdx_cons]
        omega
      | none =>
        have hs : stepStops b = true := by simp [stepStops, hr, hrc]
        simp [navLoop, hr, hrc, hs, List.findIdx_cons]

/-- The loop makes exactly one reconnect attempt per processed step whose
return to origin fails. -/
theorem navLoop_reconnects (orig : String) (steps : List (Link × StepBehavior)) :
    ∀ (i : Nat) (cur : String),
      (navLoop orig i cur steps).reconnects =
        ((steps.take (navLoop orig i cur steps).results.length).countP
          (fun p => !p.2.returnOk)) := by
  induction steps with
  | nil => intro i cur; simp [navLoop]
  | cons s rest ih =>
    intro i cur
    obtain ⟨l, b⟩ := s
    cases hr : b.returnOk with
    | true =>
      have H := ih (i + 1) orig
      simp [navLoop, hr, List.take_succ_cons, List.countP_cons, H]
    | false =>
      cases hrc : b.reconnect with
      | some reUrl =>
        have H := ih (i + 1) reUrl
        simp [navLoop, hr, hrc, List.take_succ_cons, List.countP_cons, H]
      | none =>
        simp [navLoop, hr, hrc, List.countP_cons]

/-- The produced results cover, link for link, the processed prefix of the
input list. -/
theorem navLoop_links (orig : String) (steps : List (Link × StepBehavior)) :
    ∀ (i : Nat) (cur : String),
      (navLoop orig i cur steps).results.map NavResult.original_link =
        (steps.take (navLoop orig i cur steps).results.length).map Prod.fst := by
  induction steps with
  | nil => intro i cur; simp [navLoop]
  | cons s rest ih =>
    intro i cur
    obtain ⟨l, b⟩ := s
    cases hr : b.returnOk with
    | true =>
      have H := ih (i + 1) orig
      simp [navLoop, hr, List.take_succ_cons, navStepResult_original_link, H]
    | false =>
      cases hrc : b.reconnect with
      | some reUrl =>
        have H := ih (i + 1) reUrl
        simp [navLoop, hr, hrc, List.take_succ_cons, navStepResult_original_link, H]
      | none =>
        simp [navLoop, hr, hrc, navStepResult_original_link]

/-- The index fields of the produced results are consecutive from the starting
index. -/
theorem navLoop_indices (orig : String) (steps : List (Link × StepBehavior)) :
    ∀ (i : Nat) (cur : String),
      (navLoop orig i cur steps).results.map NavResult.index =
        List.range' i (navLoop orig i cur steps).results.length := by
  induction steps with
  | nil => intro i cur; simp [navLoop]
  | cons s rest ih =>
    intro i cur
    obtain ⟨l, b⟩ := s
    cases hr : b.returnOk with
    | true =>
      have H := ih (i + 1) orig
      simp [navLoop, hr, List.range'_succ, navStepResult_index, H]
    | false =>
      cases hrc : b.reconnect with
      | some reUrl =>
        have H := ih (i + 1) reUrl
        simp [navLoop, hr, hrc, List.range'_succ, navStepResult_index, H]
      | none =>
        simp [navLoop, hr, hrc, List.range'_succ, navStepResult_index]

/-- When every step navigates and returns successfully, the loop covers the
whole list, ends on the origin url (or stays on the starting page for an empty
list), and no result carries an error. -/
theorem navLoop_all_ok (orig : String) (steps : List (Link × StepBehavior)) :
    ∀ (i : Nat) (cur : String),
      (∀ p ∈ steps, navOk p.2.nav = true ∧ p.2.returnOk = true) →
      (navLoop orig i cur steps).results.length = steps.length ∧
      (navLoop orig i cur steps).finalUrl = (if steps.isEmpty then cur else orig) ∧
      (∀ r ∈ (navLoop orig i cur steps).results, r.error = none) := by
  induction steps with
  | nil => intro i cur h; simp [navLoop]
  | cons s rest ih =>
    intro i cur h
    obtain ⟨l, b⟩ := s
    obtain ⟨hnav, hret⟩ := h (l, b) (List.mem_cons_self _ _)
    have hnav' : navOk b.nav = true := hnav
    have hret' : b.returnOk = true := hret
    obtain ⟨u, ttl, tm, hok⟩ : ∃ u ttl tm, b.nav = NavOutcome.ok u ttl tm := by
      cases hv : b.nav with
      | ok u ttl tm => exact ⟨u, ttl, tm, rfl⟩
      | err m tm => rw [hv] at hnav'; cases hnav'
    obtain ⟨H1, H2, H3⟩ := ih (i + 1) orig (fun p hp => h p (List.mem_cons_of_mem _ hp))
    refine ⟨?_, ?_, ?_⟩
    · simp [navLoop, hret', H1]
    · simp only [navLoop, hret', if_true]
      rw [H2]
      cases rest <;> simp
    · intro r hr
      simp only [navLoop, hret', if_true, List.mem_cons] at hr
      rcases hr with rfl | hr
      · rw [hok]
        rfl
      · exact H3 r hr

/-- Every result of the loop has its error field set with no success fields,
or its success fields set with no error. -/
theorem navLoop_xor (orig : String) (steps : List (Link × StepBehavior)) :
    ∀ (i : Nat) (cur : String) (r : NavResult), r ∈ (navLoop orig i cur steps).results →
      (r.error.isSome = true ∧ r.current_url = none ∧ r.page_title = none) ∨
      (r.error = none ∧ r.current_url.isSome = true ∧ r.page_title.isSome = true) := by
  induction steps with
  | nil => intro i cur r hr; simp [navLoop] at hr
  | cons s rest ih =>
    intro i cur r hr
    obtain ⟨l, b⟩ := s
    cases hr' : b.returnOk with
    | true =>
      simp only [navLoop, hr', if_true, List.mem_cons] at hr
      rcases hr with rfl | hr
      · cases b.nav <;> simp [navStepResult]
      · exact ih (i + 1) orig r hr
    | false =>
      cases hrc : b.reconnect with
      | some reUrl =>
        simp only [navLoop, hr', hrc, Bool.false_eq_true, if_false,
          List.mem_cons] at hr
        rcases hr with rfl | hr
        · cases b.nav <;> simp [navStepResult]
        · exact ih (i + 1) reUrl r hr
      | none =>
        simp only [navLoop, hr', hrc, Bool.false_eq_true, if_false,
          List.mem_cons, List.not_mem_nil, or_false] at hr
        subst hr
        cases b.nav <;> simp [navStepResult]

/-- C1: when no navigation, capture or return step fails, navigate_and_return
returns exactly one result per target with index fields 0..N-1 in input order,
and the session ends on the origin url captured before the loop started. -/
theorem C1_round_trip_navigator (pageUrl : String) (steps : List (Link × StepBehavior))
    (h : ∀ p ∈ steps, navOk p.2.nav = true ∧ p.2.returnOk = true) :
    (navigate_and_return pageUrl steps).results.length = steps.length ∧
    (navigate_and_return pageUrl steps).results.map NavResult.index =
      List.range steps.length ∧
    (navigate_and_return pageUrl steps).results.map NavResult.original_link =
      steps.map Prod.fst ∧
    (navigate_and_return pageUrl steps).finalUrl = pageUrl := by
  obtain ⟨H1, H2, H3⟩ := navLoop_all_ok pageUrl steps 0 pageUrl h
  have HI := navLoop_indices pageUrl steps 0 pageUrl
  have HL := navLoop_links pageUrl steps 0 pageUrl
  rw [H1] at HI HL
  unfold navigate_and_return
  refine ⟨H1, ?_, ?_, ?_⟩
  · rw [HI]
    exact (List.range_eq_range' _).symm
  · rw [HL, List.take_length]
  · rw [H2, ite_self]

/-- Witness for C1 on a two-target all-success run. -/
theorem C1_round_trip_navigator_witness :
    (navigate_and_return "https://origin"
      [({ text := "a", href := "ha" },
        { nav := NavOutcome.ok "ua" "ta" 1, returnOk := true, reconnect := none }),
       ({ text := "b", href := "hb" },
        { nav := NavOutcome.ok "ub" "tb" 2, returnOk := true,
          reconnect := none })]).results.length = 2 ∧
    (navigate_and_return "https://origin"
      [({ text := "a", href := "ha" },
        { nav := NavOutcome.ok "ua" "ta" 1, returnOk := true, reconnect := none }),
       ({ text := "b", href := "hb" },
        { nav := NavOutcome.ok "ub" "tb" 2, returnOk := true,
          reconnect := none })]).results.map NavResult.index = List.range 2 ∧
    (navigate_and_return "https://origin"
      [({ text := "a", href := "ha" },
        { nav := NavOutcome.ok "ua" "ta" 1, returnOk := true, reconnect := none }),
       ({ text := "b", href := "hb" },
        { nav := NavOutcome.ok "ub" "tb" 2, returnOk := true,
          reconnect := none })]).results.map NavResult.original_link =
      [{ text := "a", href := "ha" }, { text := "b", href := "hb" }] ∧
    (navigate_and_return "https://origin"
      [({ text := "a", href := "ha" },
        { nav := NavOutcome.ok "ua" "ta" 1, returnOk := true, reconnect := none }),
       ({ text := "b", href := "hb" },
        { nav := NavOutcome.ok "ub" "tb" 2, returnOk := true,
          reconnect := none })]).finalUrl = "https://origin" :=
  C1_round_trip_navigator "https://origin"
    [({ text := "a", href := "ha" },
      { nav := NavOutcome.ok "ua" "ta" 1, returnOk := true, reconnect := none }),
     ({ text := "b", href := "hb" },
      { nav := NavOutcome.ok "ub" "tb" 2, returnOk := true, reconnect := none })]
    (by decide)

/-- C2: a failed return to origin triggers exactly one reconnect attempt per
such failure (the reconnect count equals the number of processed steps whose
return failed); a step whose reconnect also fails is the first and only
stopping point, so the run covers the input list up to and including that
step, returns the results produced so far (never more than the input length)
instead of raising, and otherwise processes every target. -/
theorem C2_return_failure_reconnect_policy (pageUrl : String)
    (steps : List (Link × StepBehavior)) :
    (navigate_and_return pageUrl steps).results.length =
      min steps.length (steps.findIdx (fun p => stepStops p.2) + 1) ∧
    (navigate_and_return pageUrl steps).results.length ≤ steps.length ∧
    (navigate_and_return pageUrl steps).reconnects =
      ((steps.take (navigate_and_return pageUrl steps).results.length).countP
        (fun p => !p.2.returnOk)) ∧
    (navigate_and_return pageUrl steps).results.map NavResult.original_link =
      (steps.take (navigate_and_return pageUrl steps).results.length).map Prod.fst := by
  unfold navigate_and_return
  refine ⟨navLoop_length pageUrl steps 0 pageUrl, ?_,
    navLoop_reconnects pageUrl steps 0 pageUrl, navLoop_links pageUrl steps 0 pageUrl⟩
  rw [navLoop_length pageUrl steps 0 pageUrl]
  omega

/-- C7: every navigation result has its error field set with the success
fields empty, or the success fields set with no error; a per-target navigation
failure with a successful return is recorded as that target's error result and
the loop goes on to the remaining targets. -/
theorem C7_error_xor_success (pageUrl : String) (steps : List (Link × StepBehavior)) :
    (∀ r ∈ (navigate_and_return pageUrl steps).results,
        (r.error.isSome = true ∧ r.current_url = none ∧ r.page_title = none) ∨
        (r.error = none ∧ r.current_url.isSome = true ∧ r.page_title.isSome = true)) ∧
    (∀ l b rest msg t, b.nav = NavOutcome.err msg t → b.returnOk = true →
        (navigate_and_return pageUrl ((l, b) :: rest)).results =
          { index := 0, original_link := l, current_url := none, page_title := none,
            timestamp := t, error := some msg } ::
            (navLoop pageUrl 1 pageUrl rest).results) := by
  constructor
  · exact fun r hr => navLoop_xor pageUrl steps 0 pageUrl r hr
  · intro l b rest msg t hb hrt
    unfold navigate_and_return
    simp [navLoop, hrt, hb, navStepResult]

/-- Witness for C7 on a one-target run whose navigation fails but whose return
succeeds. -/
theorem C7_error_xor_success_witness :
    (((navStepResult 0 ⟨"t", "h"⟩ (NavOutcome.err "boom" 5)).error.isSome = true ∧
        (navStepResult 0 ⟨"t", "h"⟩ (NavOutcome.err "boom" 5)).current_url = none ∧
        (navStepResult 0 ⟨"t", "h"⟩ (NavOutcome.err "boom" 5)).page_title = none) ∨
      ((navStepResult 0 ⟨"t", "h"⟩ (NavOutcome.err "boom" 5)).error = none ∧
        (navStepResult 0 ⟨"t", "h"⟩ (NavOutcome.err "boom" 5)).current_url.isSome = true ∧
        (navStepResult 0 ⟨"t", "h"⟩ (NavOutcome.err "boom" 5)).page_title.isSome = true)) ∧
    (navigate_and_return "o"
        [(⟨"t", "h"⟩, ⟨NavOutcome.err "boom" 5, true, none⟩)]).results =
      navStepResult 0 ⟨"t", "h"⟩ (NavOutcome.err "boom" 5) :: (navLoop "o" 1 "o" []).results :=
  ⟨(C7_error_xor_success "o" [(⟨"t", "h"⟩, ⟨NavOutcome.err "boom" 5, true, none⟩)]).1
      (navStepResult 0 ⟨"t", "h"⟩ (NavOutcome.err "boom" 5)) (by decide),
    (C7_error_xor_success "o" [(⟨"t", "h"⟩, ⟨NavOutcome.err "boom" 5, true, none⟩)]).2
      ⟨"t", "h"⟩ ⟨NavOutcome.err "boom" 5, true, none⟩ [] "boom" 5 rfl rfl⟩

/-- A resolved owner really owns the plate: find? returns an owner-index entry
containing the plate. -/
theorem get_owner_for_license_plate_spec (owners : List (String × List String))
    (licensePlate ownerName : String)
    (h : get_owner_for_license_plate owners licensePlate = some ownerName) :
    ∃ plates, (ownerName, plates) ∈ owners ∧ licensePlate ∈ plates := by
  unfold get_owner_for_license_plate at h
  cases hf : owners.find? (fun p => p.2.contains licensePlate) with
  | none => rw [hf] at h; cases h
  | some q =>
    rw [hf] at h
    simp only [Option.some.injEq] at h
    subst h
    refine ⟨q.2, ?_, ?_⟩
    · exact List.mem_of_find?_eq_some hf
    · have hp := List.find?_some hf
      simpa using hp

/-- A result surviving one receipts step is an old result or was produced for
a rental whose plate resolved to an owner. -/
theorem receiptsStep_mem (pr : String → List String → String → String → ReceiptResult)
    (owners : List (String × List String)) (acc : List ReceiptResult)
    (p : String × List MatchingRental) (r : ReceiptResult)
    (hr : r ∈ receiptsStep pr owners acc p) :
    r ∈ acc ∨ ∃ href info ownerName plate,
      get_owner_for_license_plate owners plate = some ownerName ∧
      r = pr href info ownerName plate := by
  obtain ⟨url, rentals⟩ := p
  cases rentals with
  | nil => exact Or.inl hr
  | cons first rest' =>
    by_cases hlen : 3 ≤ first.vehicle_info.length
    · cases howner : get_owner_for_license_plate owners (first.vehicle_info.getD 2 "") with
      | some ownerName =>
        have hr' : r ∈ acc ++ (first :: rest').map
            (fun m => pr m.rental_href first.vehicle_info ownerName
              (first.vehicle_info.getD 2 "")) := by
          unfold receiptsStep at hr
          dsimp only at hr
          rw [if_pos hlen] at hr
          simp only [howner] at hr
          exact hr
        rcases List.mem_append.1 hr' with h | h
        · exact Or.inl h
        · obtain ⟨m, hm, hmr⟩ := List.mem_map.1 h
          exact Or.inr ⟨m.rental_href, first.vehicle_info, ownerName,
            first.vehicle_info.getD 2 "", howner, hmr.symm⟩
      | none =>
        have hr' : r ∈ acc := by
          unfold receiptsStep at hr
          dsimp only at hr
          rw [if_pos hlen] at hr
          simp only [howner] at hr
          exact hr
        exact Or.inl hr'
    · have hr' : r ∈ acc := by
        unfold receiptsStep at hr
        dsimp only at hr
        rw [if_neg hlen] at hr
        exact hr
      exact Or.inl hr'

/-- Folded version of receiptsStep_mem over the whole rental table. -/
theorem foldl_receiptsStep_mem (pr : String → List String → String → String → ReceiptResult)
    (owners : List (String × List String))
    (rentalData : List (String × List MatchingRental)) :
    ∀ (acc : List ReceiptResult) (r : ReceiptResult),
      r ∈ rentalData.foldl (receiptsStep pr owners) acc →
      r ∈ acc ∨ ∃ href info ownerName plate,
        get_owner_for_license_plate owners plate = some ownerName ∧
        r = pr href info ownerName plate := by
  induction rentalData with
  | nil => intro acc r hr; exact Or.inl hr
  | cons q rest ih =>
    intro acc r hr
    rcases ih (receiptsStep pr owners acc q) r hr with h | h
    · exact receiptsStep_mem pr owners acc q r h
    · exact Or.inr h

/-- Every entry of process_all_vehicles comes from a vehicle of the loaded
table that passed the owner filter, with its month-filtered rentals. -/
theorem process_all_vehicles_mem (targetMonth : Option String)
    (pageRentals : String → List Rental) (vehicles owners : List (String × List String))
    (e : String × List MatchingRental)
    (he : e ∈ process_all_vehicles targetMonth pageRentals vehicles owners) :
    ∃ info, (e.1, info) ∈ vehicles ∧ keepVehicle owners info = true ∧
      e.2 = process_vehicle_rentals targetMonth info (pageRentals e.1) := by
  unfold process_all_vehicles at he
  obtain ⟨p, hp, hpe⟩ := List.mem_map.1 he
  have hk := List.of_mem_filter hp
  have hpm := List.mem_of_mem_filter hp
  subst hpe
  exact ⟨p.2, hpm, hk, rfl⟩

/-- C6: a vehicle whose license plate is absent from the owner index is
dropped before processing: every vehicle kept by the rental extractor has its
plate in the index and every retained rental carries that vehicle's info
tuple, and every receipt-processing result is attributed to an owner that the
index really records for that plate, never to a default owner. -/
theorem C6_unowned_vehicle_dropped (targetMonth : Option String)
    (pageRentals : String → List Rental) (vehicles owners : List (String × List String))
    (pr : String → List String → String → String → ReceiptResult)
    (rentalData : List (String × List MatchingRental))
    (hpr : ∀ href info ownerName plate,
        (pr href info ownerName plate).owner = ownerName ∧
        (pr href info ownerName plate).license_plate = plate) :
    (∀ e ∈ process_all_vehicles targetMonth pageRentals vehicles owners,
        ∃ info, (e.1, info) ∈ vehicles ∧ 3 ≤ info.length ∧
          info.getD 2 "" ∈ allowedPlates owners ∧
          ∀ m ∈ e.2, m.vehicle_info = info) ∧
    (∀ r ∈ process_all_receipts pr owners rentalData,
        ∃ plates, (r.owner, plates) ∈ owners ∧ r.license_plate ∈ plates) := by
  constructor
  · intro e he
    obtain ⟨info, hv, hk, he2⟩ :=
      process_all_vehicles_mem targetMonth pageRentals vehicles owners e he
    unfold keepVehicle at hk
    simp only [Bool.and_eq_true, decide_eq_true_eq] at hk
    refine ⟨info, hv, hk.1, ?_, ?_⟩
    · simpa using hk.2
    · intro m hm
      rw [he2] at hm
      obtain ⟨rr, hrr, hprod⟩ :=
        process_vehicle_rentals_mem targetMonth info (pageRentals e.1) m hm
      exact producedRecord_vehicle_info targetMonth info rr m hprod
  · intro r hr
    unfold process_all_receipts at hr
    split at hr
    · cases hr
    · rcases foldl_receiptsStep_mem pr owners rentalData [] r hr with h | h
      · cases h
      · obtain ⟨href, info, ownerName, plate, howner, hre⟩ := h
        obtain ⟨ho, hp⟩ := hpr href info ownerName plate
        subst hre
        rw [ho, hp]
        exact get_owner_for_license_plate_spec owners plate ownerName howner

/-- Witness for C6: a concrete run of the receipt pipeline over a one-owner
index, with the per-receipt processor instantiated by process_receipt. -/
theorem C6_unowned_vehicle_dropped_witness :
    ∃ plates,
      ((process_receipt (fun _ => none) "rh" ["Car", "Trim", "P1"] "alice" "P1").owner,
        plates) ∈ [("alice", ["P1"])] ∧
      (process_receipt (fun _ => none) "rh" ["Car", "Trim", "P1"] "alice"
        "P1").license_plate ∈ plates :=
  (C6_unowned_vehicle_dropped (some "Jul") (fun _ => []) [("u1", ["Car", "Trim", "P1"])]
      [("alice", ["P1"])] (process_receipt (fun _ => none))
      [("u1", [⟨["Car", "Trim", "P1"], "rh", ⟨"Jul 1", "Jul 2", "Jul"⟩⟩])]
      (fun _ _ _ _ => ⟨rfl, rfl⟩)).2
    (process_receipt (fun _ => none) "rh" ["Car", "Trim", "P1"] "alice" "P1") (by decide)

/-- C9: no class in the codebase defines open_new_tab, so the calls made by
extract_rentals_from_page and process_receipt raise AttributeError; for every
input, extract_rentals_from_page catches it and returns the empty list, and
process_receipt returns its error record instead of a receipt, neither
propagating an exception. -/
theorem C9_open_new_tab_missing (pageEnv : String → List Rental)
    (costEnv : String → Option (List (String × String))) (vehicleUrl rentalHref : String)
    (vehicleInfo : List String) (ownerName licensePlate : String) :
    extract_rentals_from_page pageEnv vehicleUrl = [] ∧
    (process_receipt costEnv rentalHref vehicleInfo ownerName licensePlate).error.isSome =
      true :=
  ⟨rfl, rfl⟩

/-- A card with fewer than two subtitle elements makes the eval script throw:
whatever entries were accumulated, the whole scan ends in an error. -/
theorem extractAllCards_error (cards : List Card) :
    ∀ acc : List (String × List String), (∃ c ∈ cards, c.subtitles.length < 2) →
      ∃ e, extractAllCards cards acc = Except.error e := by
  induction cards with
  | nil =>
    intro acc h
    obtain ⟨c, hc, _⟩ := h
    cases hc
  | cons c rest ih =>
    intro acc h
    by_cases hc : c.subtitles.length < 2
    · have hcard : extractCard c = Except.error "TypeError: cannot read properties of undefined" := by
        unfold extractCard
        cases hs : c.subtitles with
        | nil => rfl
        | cons s1 tl =>
          cases hs2 : tl with
          | nil => rfl
          | cons s2 t =>
            rw [hs, hs2] at hc
            simp only [List.length_cons] at hc
            omega
      unfold extractAllCards
      rw [hcard]
      exact ⟨_, rfl⟩
    · obtain ⟨c', hc', hlen⟩ := h
      rcases List.mem_cons.1 hc' with rfl | hc'
      · exact absurd hlen hc
      · have h2 : 2 ≤ c.subtitles.length := Nat.le_of_not_lt hc
        obtain ⟨entry, hok⟩ : ∃ entry, extractCard c = Except.ok entry := by
          unfold extractCard
          cases hs : c.subtitles with
          | nil => rw [hs] at h2; cases h2
          | cons s1 tl =>
            cases hs2 : tl with
            | nil =>
              rw [hs, hs2] at h2
              simp at h2
            | cons s2 t => exact ⟨_, rfl⟩
        unfold extractAllCards
        rw [hok]
        exact ih _ ⟨c', hc', hlen⟩

/-- Entries accumulated by the eval script always hold a nonempty details
list. -/
theorem extractAllCards_pos (cards : List Card) :
    ∀ (acc m : List (String × List String)), extractAllCards cards acc = Except.ok m →
      (∀ e ∈ acc, 0 < e.2.length) → ∀ e ∈ m, 0 < e.2.length := by
  induction cards with
  | nil =>
    intro acc m hm hacc
    unfold extractAllCards at hm
    cases hm
    exact hacc
  | cons c rest ih =>
    intro acc m hm hacc
    unfold extractAllCards at hm
    cases hx : extractCard c with
    | error e => rw [hx] at hm; cases hm
    | ok entry =>
      rw [hx] at hm
      refine ih _ m hm ?_
      intro e he
      by_cases hlen : entry.2.length > 0
      · rw [if_pos hlen] at he
        rcases dictInsert_mem acc entry.1 entry.2 e he with h | h
        · exact hacc e h
        · rw [h]
          exact hlen
      · rw [if_neg hlen] at he
        exact hacc e he

/-- C8 counterexample: a card whose inner structure lacks the two expected
subtitle elements is fatal to the whole extraction: with such a card present,
the well-formed card alongside it is lost and the empty mapping is returned,
while alone the well-formed card does extract. -/
theorem C8_counterexample_bad_card_fatal :
    extract_vehicle_listings
      [⟨"hrefA", some "2020 Car A", []⟩,
       ⟨"hrefB", some "2021 Car B", [some "LX", some "ABC123"]⟩] = [] ∧
    extract_vehicle_listings
      [⟨"hrefB", some "2021 Car B", [some "LX", some "ABC123"]⟩] =
      [("hrefB", ["2021 Car B", "LX", "ABC123"])] :=
  ⟨by decide, by decide⟩

/-- C8 amended: a card contributes an entry to the result mapping only if at
least one detail value was extracted for it, and a card missing the main-title
element is tolerated; but a card with fewer than two subtitle elements is not
merely skipped: it aborts the whole extraction, which returns the empty
mapping, losing the remaining cards. -/
theorem C8_amended_card_contribution (cards : List Card) :
    (∀ e ∈ extract_vehicle_listings cards, 0 < e.2.length) ∧
    ((∃ c ∈ cards, c.subtitles.length < 2) → extract_vehicle_listings cards = []) ∧
    (∀ href s1 s2 t,
        extract_vehicle_listings
            [{ href := href, mainTitle := none, subtitles := s1 :: s2 :: t }] =
          [(href, [jsRender s1, jsRender s2])]) := by
  refine ⟨?_, ?_, ?_⟩
  · intro e he
    unfold extract_vehicle_listings at he
    cases hx : extractAllCards cards [] with
    | ok m =>
      rw [hx] at he
      exact extractAllCards_pos cards [] m hx (by intro x hx'; cases hx') e he
    | error err =>
      rw [hx] at he
      cases he
  · intro h
    obtain ⟨e, he⟩ := extractAllCards_error cards [] h
    unfold extract_vehicle_listings
    rw [he]
  · intro href s1 s2 t
    rfl

/-- Witness for C8 amended: one short card aborts a two-card extraction. -/
theorem C8_amended_card_contribution_witness :
    extract_vehicle_listings
      [⟨"hrefA", some "2020 Car A", [some "LX"]⟩,
       ⟨"hrefB", some "2021 Car B", [some "LX", some "ABC123"]⟩] = [] :=
  (C8_amended_card_contribution
      [⟨"hrefA", some "2020 Car A", [some "LX"]⟩,
       ⟨"hrefB", some "2021 Car B", [some "LX", some "ABC123"]⟩]).2.1
    ⟨⟨"hrefA", some "2020 Car A", [some "LX"]⟩, by decide, by decide⟩
